import Mathlib

/-!
Shallow embedding of the quota/subscription ledger in `src/limitService.js`
(`getLimitStatus`, `decrementLimit`, `incrementLimit`, `upgradeUser`).

Modelling conventions:
* Firestore documents are modelled as association lists from the document id
  (a `String`) to a record structure; absent JS object fields are `Option.none`.
* Instants (`new Date()`) are natural numbers of milliseconds since the epoch;
  a stored ISO timestamp string is modelled by its parsed timestamp.
  `getTodayStr()` (the UTC `YYYY-MM-DD` prefix of the ISO string) is modelled
  by the day index `t / msPerDay`, which identifies UTC calendar days exactly.
  `Date.setDate(getDate() + days)` is day addition `t + days * msPerDay`
  (exact for the UTC clock this service compares against).
* JS truthiness of an optional string field (`if (x)`) is `x` present and
  nonempty; of an optional number, present and nonzero.
* A storage fault (any rejected Firestore call, caught by the `catch` blocks)
  is a boolean `fault` parameter; when it is set the operation returns the
  `catch` result and the store is left as it was.
* Every write in the source is either `set(..., { merge: true })` or
  `update({ count: ... })`, so no write removes a field from a stored record;
  the state-transition functions below reflect that field-preservation.
-/

def msPerDay : Nat := 86400000

/-- Day index of an instant: models `getTodayStr()` on that instant. -/
def dayOf (t : Nat) : Nat := t / msPerDay

/-- Calendar-day addition, models `d.setDate(d.getDate() + days)` in UTC. -/
def addDays (t : Nat) (days : Nat) : Nat := t + days * msPerDay

def DAILY_LIMIT : Int := 5

/-- One document of the `users` collection (`doc.data()`). -/
structure DeviceRecord where
  date : Option Nat
  count : Option Int
  subscriptionExpiry : Option Nat
  isPremium : Option Bool
  email : Option String
  phone : Option String
deriving Repr, DecidableEq

/-- One document of the `premium_users` collection. -/
structure PremiumEntry where
  deviceId : String
  subscriptionExpiry : Nat
  isPremium : Bool
  upgradedAt : Nat
  planDuration : Nat
  email : Option String
  phone : Option String
  orderId : Option String
  paymentId : Option String
  amount : Option Int
deriving Repr, DecidableEq

/-- The `paymentDetails` argument of `upgradeUser`. -/
structure PaymentDetails where
  email : Option String
  phone : Option String
  orderId : Option String
  paymentId : Option String
  amount : Option Int
deriving Repr, DecidableEq

/-- The whole Firestore state seen by the service. -/
structure DB where
  users : List (String × DeviceRecord)
  premium_users : List (String × PremiumEntry)
deriving Repr, DecidableEq

def emptyDB : DB := ⟨[], []⟩

/-- Document lookup by id. -/
def kvGet {α : Type} (l : List (String × α)) (k : String) : Option α :=
  match l with
  | [] => none
  | (k1, v) :: t => if k = k1 then some v else kvGet t k

/-- Document write by id (insert or replace). -/
def kvSet {α : Type} (l : List (String × α)) (k : String) (v : α) :
    List (String × α) :=
  match l with
  | [] => [(k, v)]
  | (k1, v1) :: t => if k = k1 then (k, v) :: t else (k1, v1) :: kvSet t k v

/-- JS truthiness of an optional string field. -/
def truthy : Option String → Bool
  | none => false
  | some s => s ≠ ""

/-- JS truthiness of an optional number field (`0` is falsy). -/
def truthyInt : Option Int → Bool
  | none => false
  | some n => n ≠ 0

/-- JS `haystack.includes(needle)`. -/
def strIncludes (haystack needle : String) : Bool :=
  decide (List.IsInfix needle.data haystack.data)

/-- JS `userData.count > 0` (`undefined > 0` is `false`). -/
def countPos : Option Int → Bool
  | none => false
  | some c => 0 < c

/-- Result object of `getLimitStatus`; `none` fields model absent JS fields. -/
structure LimitStatus where
  allowed : Bool
  remaining : Option Int
  isPremium : Option Bool
  expiryDate : Option Nat
  error : Option String
deriving Repr, DecidableEq

/-- The `{ allowed: count > 0, remaining: count, isPremium: false }` result. -/
def meteredResult (c : Option Int) : LimitStatus :=
  { allowed := countPos c, remaining := c, isPremium := some false
    expiryDate := none, error := none }

/-- The `{ allowed: true, remaining: 9999, isPremium: true, expiryDate }` result. -/
def premiumResult (e : Nat) : LimitStatus :=
  { allowed := true, remaining := some 9999, isPremium := some true
    expiryDate := some e, error := none }

/-- Record created in memory for a never-seen device:
`{ date: today, count: DAILY_LIMIT }` (nothing spread over it). This is also
what `set({ date, count }, { merge: true })` stores for a missing document. -/
def freshRecord (today : Nat) : DeviceRecord :=
  { date := some today, count := some DAILY_LIMIT, subscriptionExpiry := none
    isPremium := none, email := none, phone := none }

/-- The in-memory object `{ date: today, count: DAILY_LIMIT, ...userData }`:
the spread comes last, so fields present on the stored record override the
reset defaults. -/
def spreadReset (today : Nat) (r : DeviceRecord) : DeviceRecord :=
  { r with date := some (r.date.getD today)
           count := some (r.count.getD DAILY_LIMIT) }

/-- Line `if (userData.subscriptionExpiry) delete userData.count` (in-memory
only; truthiness of the stored ISO string is presence in this model). -/
def dropCountIfPremium (u : DeviceRecord) : DeviceRecord :=
  if u.subscriptionExpiry.isSome then { u with count := none } else u

/-- The persisted reset write `set({ date: today, count: DAILY_LIMIT },
{ merge: true })` applied to a stored record. -/
def mergeReset (today : Nat) : Option DeviceRecord → DeviceRecord
  | none => freshRecord today
  | some r => { r with date := some today, count := some DAILY_LIMIT }

/-- JS `s.toLowerCase()` on the character sequence (ASCII case folding, as
`Char.toLower` maps it). -/
def lowerSeq (s : String) : List Char := s.data.map Char.toLower

/-- Ownership verification of `getLimitStatus` (source lines 74-91): returns
`(hasOwnerInfo, isMatch)`. Email: case-insensitive equality, both sides
truthy. Phone: strict equality or bidirectional `includes`. -/
def ownerCheck (r : DeviceRecord) (userEmail userPhone : Option String) :
    Bool × Bool :=
  let emailMatch := truthy r.email && truthy userEmail &&
    (lowerSeq (r.email.getD "") == lowerSeq (userEmail.getD ""))
  let phoneMatch := truthy r.phone && truthy userPhone &&
    (let op := r.phone.getD ""
     let up := userPhone.getD ""
     op == up || strIncludes up op || strIncludes op up)
  (truthy r.email || truthy r.phone, emailMatch || phoneMatch)

/-- Premium check and result construction of `getLimitStatus` (source lines
66-122), applied after the reset step. `db` is the store state to return. -/
def finishStatus (userData : DeviceRecord) (userEmail userPhone : Option String)
    (now : Nat) (db : DB) : LimitStatus × DB :=
  match userData.subscriptionExpiry with
  | some expiry =>
    if now < expiry then
      let oc := ownerCheck userData userEmail userPhone
      if oc.1 && !oc.2 then (meteredResult userData.count, db)
      else (premiumResult expiry, db)
    else (meteredResult userData.count, db)
  | none => (meteredResult userData.count, db)

/-- `getLimitStatus(deviceId, userEmail, userPhone)` with explicit store state,
current instant and fault flag. Returns the result object and the store
after the call. -/
def getLimitStatus (db : DB) (deviceId : String)
    (userEmail userPhone : Option String) (fault : Bool) (now : Nat) :
    LimitStatus × DB :=
  if deviceId = "" then
    ({ allowed := false, remaining := some 0, isPremium := none
       expiryDate := none, error := some "No Device ID" }, db)
  else if fault then
    ({ allowed := false, remaining := some 0, isPremium := none
       expiryDate := none, error := some "Database Error" }, db)
  else
    let today := dayOf now
    match kvGet db.users deviceId with
    | none =>
      let userData := dropCountIfPremium (freshRecord today)
      finishStatus userData userEmail userPhone now
        { db with users := kvSet db.users deviceId (mergeReset today none) }
    | some r =>
      if r.date = some today then
        finishStatus r userEmail userPhone now db
      else
        let userData := dropCountIfPremium (spreadReset today r)
        finishStatus userData userEmail userPhone now
          { db with users := kvSet db.users deviceId (mergeReset today (some r)) }

/-- Body of the `decrementLimit` transaction after the premium re-check:
`if (data.count > 0) t.update(userRef, { count: data.count - 1 })`. -/
def decCount (db : DB) (deviceId : String) (data : DeviceRecord) : Bool × DB :=
  match data.count with
  | some c =>
    if 0 < c then
      (true, { db with users := kvSet db.users deviceId ({ data with count := some (c - 1) }) })
    else (true, db)
  | none => (true, db)

/-- `decrementLimit(deviceId)`: transactional read-modify-write; returns `true`
unless the storage faults. -/
def decrementLimit (db : DB) (deviceId : String) (fault : Bool) (now : Nat) :
    Bool × DB :=
  if fault then (false, db)
  else
    match kvGet db.users deviceId with
    | none => (true, db)
    | some data =>
      match data.subscriptionExpiry with
      | some e => if now < e then (true, db) else decCount db deviceId data
      | none => decCount db deviceId data

/-- Result object of `incrementLimit`. -/
structure IncResult where
  success : Bool
deriving Repr, DecidableEq

/-- `incrementLimit(deviceId)`: `update({ count: increment(1) })`; `update` on
a missing document rejects (caught like a storage fault); `increment(1)` on a
missing field treats it as `0`. -/
def incrementLimit (db : DB) (deviceId : String) (fault : Bool) :
    IncResult × DB :=
  if fault then ({ success := false }, db)
  else
    match kvGet db.users deviceId with
    | none => ({ success := false }, db)
    | some data =>
      let data1 : DeviceRecord := { data with count := some (data.count.getD 0 + 1) }
      ({ success := true }, { db with users := kvSet db.users deviceId data1 })

/-- `upgradeUser(deviceId, days, paymentDetails)`. `let currentExpiry = now`
aliases the `now` Date object; `setDate` then mutates it, so when the base is
`now` (missing or non-future stored expiry) the `upgradedAt` field of the
`premium_users` entry is also pushed forward by `days`. -/
def upgradeUser (db : DB) (deviceId : String) (days : Nat)
    (pd : PaymentDetails) (fault : Bool) (now : Nat) : Bool × DB :=
  if fault then (false, db)
  else
    let stored := kvGet db.users deviceId
    let activeBase : Option Nat :=
      match stored with
      | some data =>
        match data.subscriptionExpiry with
        | some e => if now < e then some e else none
        | none => none
      | none => none
    let newExpiry := addDays (activeBase.getD now) days
    let upgradedAt := match activeBase with
      | some _ => now
      | none => addDays now days
    let rec1 : DeviceRecord :=
      match stored with
      | none =>
        { date := none, count := none, subscriptionExpiry := some newExpiry
          isPremium := some true, email := none, phone := none }
      | some r => { r with subscriptionExpiry := some newExpiry, isPremium := some true }
    let entry : PremiumEntry :=
      { deviceId := deviceId, subscriptionExpiry := newExpiry, isPremium := true
        upgradedAt := upgradedAt, planDuration := days
        email := if truthy pd.email then pd.email else none
        phone := if truthy pd.phone then pd.phone else none
        orderId := if truthy pd.orderId then pd.orderId else none
        paymentId := if truthy pd.paymentId then pd.paymentId else none
        amount := if truthyInt pd.amount then pd.amount else none }
    (true, { users := kvSet db.users deviceId rec1
             premium_users := kvSet db.premium_users deviceId entry })

/-- Expiry field of the stored record of a device, as `getLimitStatus` and
`decrementLimit` read it. -/
def lookupExpiry (db : DB) (d : String) : Option Nat :=
  (kvGet db.users d).bind DeviceRecord.subscriptionExpiry

/-- Nonnegativity of a stored count field (absent counts are vacuously fine). -/
def countOk : Option Int → Bool
  | none => true
  | some c => 0 ≤ c

/-- All records of a `users` list have nonnegative counts. -/
abbrev CountInvL (l : List (String × DeviceRecord)) : Prop :=
  ∀ p ∈ l, countOk p.2.count = true

abbrev CountInv (db : DB) : Prop := CountInvL db.users

/-- One ledger operation together with its inputs, fault flag and instant. -/
inductive Op where
  | status (deviceId : String) (userEmail userPhone : Option String)
      (fault : Bool) (now : Nat)
  | debit (deviceId : String) (fault : Bool) (now : Nat)
  | credit (deviceId : String) (fault : Bool)
  | upgrade (deviceId : String) (days : Nat) (pd : PaymentDetails)
      (fault : Bool) (now : Nat)

/-- Store state after one ledger operation. -/
def applyOp (db : DB) : Op → DB
  | .status d ue up f n => (getLimitStatus db d ue up f n).2
  | .debit d f n => (decrementLimit db d f n).2
  | .credit d f => (incrementLimit db d f).2
  | .upgrade d days pd f n => (upgradeUser db d days pd f n).2

/-- Store state after a sequence of ledger operations. -/
def run (db : DB) : List Op → DB
  | [] => db
  | op :: ops => run (applyOp db op) ops

theorem kvGet_kvSet {α : Type} (l : List (String × α)) (k k1 : String) (v : α) :
    kvGet (kvSet l k v) k1 = if k1 = k then some v else kvGet l k1 := by
  induction l with
  | nil => rfl
  | cons h t ih =>
    obtain ⟨k2, v2⟩ := h
    by_cases hk : k = k2
    · subst hk
      by_cases h1 : k1 = k <;> simp [kvSet, kvGet, h1]
    · by_cases h1 : k1 = k2
      · subst h1
        simp [kvSet, kvGet, hk, Ne.symm hk]
      · simp [kvSet, kvGet, hk, h1, ih]

theorem kvGet_kvSet_self {α : Type} (l : List (String × α)) (k : String) (v : α) :
    kvGet (kvSet l k v) k = some v := by
  simp [kvGet_kvSet]

theorem kvGet_kvSet_ne {α : Type} (l : List (String × α)) (k k1 : String) (v : α)
    (h : k1 ≠ k) : kvGet (kvSet l k v) k1 = kvGet l k1 := by
  simp [kvGet_kvSet, h]

theorem mem_kvSet {α : Type} (l : List (String × α)) (k : String) (v : α)
    (p : String × α) (hp : p ∈ kvSet l k v) : p = (k, v) ∨ p ∈ l := by
  induction l with
  | nil => simpa [kvSet] using hp
  | cons h t ih =>
    obtain ⟨k2, v2⟩ := h
    by_cases hk : k = k2
    · subst hk
      rcases (by simpa [kvSet] using hp : p = (k, v) ∨ p ∈ t) with h1 | h1
      · exact Or.inl h1
      · exact Or.inr (List.mem_cons_of_mem _ h1)
    · rcases (by simpa [kvSet, hk] using hp : p = (k2, v2) ∨ p ∈ kvSet t k v) with h1 | h1
      · exact Or.inr (by simp [h1])
      · rcases ih h1 with h2 | h2
        · exact Or.inl h2
        · exact Or.inr (List.mem_cons_of_mem _ h2)

theorem kvGet_mem {α : Type} (l : List (String × α)) (k : String) (v : α)
    (h : kvGet l k = some v) : (k, v) ∈ l := by
  induction l with
  | nil => simp [kvGet] at h
  | cons p t ih =>
    obtain ⟨k2, v2⟩ := p
    by_cases hk : k = k2
    · subst hk
      simp [kvGet] at h
      simp [h]
    · simp [kvGet, hk] at h
      exact List.mem_cons_of_mem _ (ih h)

theorem countInvL_kvSet (l : List (String × DeviceRecord)) (k : String)
    (v : DeviceRecord) (h : CountInvL l) (hv : countOk v.count = true) :
    CountInvL (kvSet l k v) := by
  intro p hp
  rcases mem_kvSet l k v p hp with h1 | h1
  · subst h1; exact hv
  · exact h p h1

theorem finishStatus_snd (u : DeviceRecord) (ue up : Option String) (n : Nat)
    (db : DB) : (finishStatus u ue up n db).2 = db := by
  unfold finishStatus
  cases u.subscriptionExpiry with
  | none => rfl
  | some e =>
    dsimp only
    split
    · split <;> rfl
    · rfl

theorem getStatus_db_shape (db : DB) (d : String) (ue up : Option String)
    (f : Bool) (now : Nat) :
    (getLimitStatus db d ue up f now).2 = db ∨
    (getLimitStatus db d ue up f now).2 =
      { db with users := kvSet db.users d (mergeReset (dayOf now) (kvGet db.users d)) } := by
  unfold getLimitStatus
  split
  · exact Or.inl rfl
  · split
    · exact Or.inl rfl
    · cases hk : kvGet db.users d with
      | none => right; simp [hk, finishStatus_snd]
      | some r =>
        by_cases hd : r.date = some (dayOf now)
        · left; simp [hk, hd, finishStatus_snd]
        · right; simp [hk, hd, finishStatus_snd]

theorem debit_shape (db : DB) (d : String) (f : Bool) (now : Nat) :
    (decrementLimit db d f now).2 = db ∨
    ∃ data c, kvGet db.users d = some data ∧ data.count = some c ∧ 0 < c ∧
      (decrementLimit db d f now).2 =
        { db with users := kvSet db.users d ({ data with count := some (c - 1) }) } := by
  unfold decrementLimit
  split
  · exact Or.inl rfl
  · cases hk : kvGet db.users d with
    | none => exact Or.inl rfl
    | some data =>
      dsimp only
      have hdec : (decCount db d data).2 = db ∨
          ∃ c, data.count = some c ∧ 0 < c ∧
            (decCount db d data).2 =
              { db with users := kvSet db.users d ({ data with count := some (c - 1) }) } := by
        unfold decCount
        cases hc : data.count with
        | none => exact Or.inl rfl
        | some c =>
          by_cases h0 : 0 < c
          · exact Or.inr ⟨c, rfl, h0, by simp [h0]⟩
          · simp [h0]
      cases hs : data.subscriptionExpiry with
      | some e =>
        by_cases hn : now < e
        · simp [hn]
        · simp only [hn, if_false]
          rcases hdec with h | ⟨c, hc, h0, h⟩
          · exact Or.inl h
          · exact Or.inr ⟨data, c, rfl, hc, h0, h⟩
      | none =>
        rcases hdec with h | ⟨c, hc, h0, h⟩
        · exact Or.inl h
        · exact Or.inr ⟨data, c, rfl, hc, h0, h⟩

theorem credit_shape (db : DB) (d : String) (f : Bool) :
    (incrementLimit db d f).2 = db ∨
    ∃ data, kvGet db.users d = some data ∧
      (incrementLimit db d f).2 =
        { db with users := kvSet db.users d ({ data with count := some (data.count.getD 0 + 1) }) } := by
  unfold incrementLimit
  split
  · exact Or.inl rfl
  · cases hk : kvGet db.users d with
    | none => exact Or.inl rfl
    | some data => exact Or.inr ⟨data, rfl, rfl⟩

theorem upgrade_shape (db : DB) (d : String) (days : Nat)
    (pd : PaymentDetails) (f : Bool) (now : Nat) :
    (upgradeUser db d days pd f now).2 = db ∨
    ∃ r1, (upgradeUser db d days pd f now).2.users = kvSet db.users d r1 ∧
      r1.count = (kvGet db.users d).bind DeviceRecord.count ∧
      r1.subscriptionExpiry.isSome = true := by
  unfold upgradeUser
  split
  · exact Or.inl rfl
  · cases hk : kvGet db.users d with
    | none => exact Or.inr ⟨_, rfl, by simp [hk], rfl⟩
    | some r => exact Or.inr ⟨_, rfl, by simp [hk], rfl⟩

theorem lookupExpiry_mergeResetWrite (db : DB) (d d1 : String) (t : Nat) :
    lookupExpiry { db with users := kvSet db.users d (mergeReset t (kvGet db.users d)) } d1
      = lookupExpiry db d1 := by
  unfold lookupExpiry
  by_cases h1 : d1 = d
  · subst h1
    rw [kvGet_kvSet_self]
    cases hk : kvGet db.users d1 with
    | none => simp [mergeReset, freshRecord]
    | some r => simp [mergeReset]
  · rw [kvGet_kvSet_ne _ _ _ _ h1]

theorem lookupExpiry_getStatus (db : DB) (d d1 : String) (ue up : Option String)
    (f : Bool) (now : Nat) :
    lookupExpiry (getLimitStatus db d ue up f now).2 d1 = lookupExpiry db d1 := by
  rcases getStatus_db_shape db d ue up f now with h | h
  · rw [h]
  · rw [h, lookupExpiry_mergeResetWrite]

theorem lookupExpiry_debit (db : DB) (d d1 : String) (f : Bool) (now : Nat) :
    lookupExpiry (decrementLimit db d f now).2 d1 = lookupExpiry db d1 := by
  rcases debit_shape db d f now with h | ⟨data, c, hk, _, _, h⟩
  · rw [h]
  · rw [h]
    unfold lookupExpiry
    by_cases h1 : d1 = d
    · subst h1
      rw [kvGet_kvSet_self, hk]
      rfl
    · rw [kvGet_kvSet_ne _ _ _ _ h1]

theorem lookupExpiry_credit (db : DB) (d d1 : String) (f : Bool) :
    lookupExpiry (incrementLimit db d f).2 d1 = lookupExpiry db d1 := by
  rcases credit_shape db d f with h | ⟨data, hk, h⟩
  · rw [h]
  · rw [h]
    unfold lookupExpiry
    by_cases h1 : d1 = d
    · subst h1
      rw [kvGet_kvSet_self, hk]
      rfl
    · rw [kvGet_kvSet_ne _ _ _ _ h1]

theorem lookupExpiry_upgrade_isSome (db : DB) (d d1 : String) (days : Nat)
    (pd : PaymentDetails) (f : Bool) (now : Nat) (e1 : Nat)
    (h : lookupExpiry db d1 = some e1) :
    (lookupExpiry (upgradeUser db d days pd f now).2 d1).isSome = true := by
  rcases upgrade_shape db d days pd f now with hs | ⟨r1, hu, _, hexp⟩
  · rw [hs, h]; rfl
  · unfold lookupExpiry at h ⊢
    rw [hu]
    by_cases h1 : d1 = d
    · subst h1
      rw [kvGet_kvSet_self]
      simpa using hexp
    · rw [kvGet_kvSet_ne _ _ _ _ h1, h]; rfl

theorem countInv_getStatus (db : DB) (d : String) (ue up : Option String)
    (f : Bool) (now : Nat) (h : CountInv db) :
    CountInv (getLimitStatus db d ue up f now).2 := by
  rcases getStatus_db_shape db d ue up f now with hs | hs
  · rwa [hs]
  · rw [hs]
    refine countInvL_kvSet _ _ _ h ?_
    cases kvGet db.users d with
    | none => simp [mergeReset, freshRecord, countOk, DAILY_LIMIT]
    | some r => simp [mergeReset, countOk, DAILY_LIMIT]

theorem countInv_debit (db : DB) (d : String) (f : Bool) (now : Nat)
    (h : CountInv db) : CountInv (decrementLimit db d f now).2 := by
  rcases debit_shape db d f now with hs | ⟨data, c, hk, hc, h0, hs⟩
  · rwa [hs]
  · rw [hs]
    refine countInvL_kvSet _ _ _ h ?_
    simp only [countOk, decide_eq_true_eq]
    omega

theorem countInv_credit (db : DB) (d : String) (f : Bool)
    (h : CountInv db) : CountInv (incrementLimit db d f).2 := by
  rcases credit_shape db d f with hs | ⟨data, hk, hs⟩
  · rwa [hs]
  · rw [hs]
    refine countInvL_kvSet _ _ _ h ?_
    have hmem := kvGet_mem _ _ _ hk
    have := h _ hmem
    simp only [countOk] at this ⊢
    cases hc : data.count with
    | none => simp [hc, Option.getD]
    | some c =>
      rw [hc] at this
      simp only [hc, Option.getD_some]
      simp only [decide_eq_true_eq] at this ⊢
      omega

theorem countInv_upgrade (db : DB) (d : String) (days : Nat)
    (pd : PaymentDetails) (f : Bool) (now : Nat)
    (h : CountInv db) : CountInv (upgradeUser db d days pd f now).2 := by
  rcases upgrade_shape db d days pd f now with hs | ⟨r1, hu, hcnt, _⟩
  · rwa [hs]
  · intro p hp
    rw [hu] at hp
    rcases mem_kvSet _ _ _ _ hp with h1 | h1
    · subst h1
      simp only
      rw [hcnt]
      cases hk : kvGet db.users d with
      | none => rfl
      | some r =>
        have := h _ (kvGet_mem _ _ _ hk)
        simpa using this
    · exact h p h1

theorem countInv_applyOp (db : DB) (op : Op) (h : CountInv db) :
    CountInv (applyOp db op) := by
  cases op with
  | status d ue up f n => exact countInv_getStatus db d ue up f n h
  | debit d f n => exact countInv_debit db d f n h
  | credit d f => exact countInv_credit db d f h
  | upgrade d days pd f n => exact countInv_upgrade db d days pd f n h

theorem countInv_run (ops : List Op) (db : DB) (h : CountInv db) :
    CountInv (run db ops) := by
  induction ops generalizing db with
  | nil => exact h
  | cons op t ih => exact ih _ (countInv_applyOp db op h)

theorem lookupExpiry_applyOp_isSome (db : DB) (op : Op) (d1 : String) (e1 : Nat)
    (h : lookupExpiry db d1 = some e1) :
    (lookupExpiry (applyOp db op) d1).isSome = true := by
  cases op with
  | status d ue up f n => rw [applyOp, lookupExpiry_getStatus, h]; rfl
  | debit d f n => rw [applyOp, lookupExpiry_debit, h]; rfl
  | credit d f => rw [applyOp, lookupExpiry_credit, h]; rfl
  | upgrade d days pd f n => exact lookupExpiry_upgrade_isSome db d d1 days pd f n e1 h

theorem ownerCheck_dropSpread (t : Nat) (r : DeviceRecord)
    (ue up : Option String) :
    ownerCheck (dropCountIfPremium (spreadReset t r)) ue up = ownerCheck r ue up := by
  unfold ownerCheck dropCountIfPremium spreadReset
  split <;> rfl

theorem expiry_dropSpread (t : Nat) (r : DeviceRecord) :
    (dropCountIfPremium (spreadReset t r)).subscriptionExpiry = r.subscriptionExpiry := by
  unfold dropCountIfPremium spreadReset
  split <;> rfl

theorem count_dropSpread_premium (t : Nat) (r : DeviceRecord) (e : Nat)
    (h : r.subscriptionExpiry = some e) :
    (dropCountIfPremium (spreadReset t r)).count = none := by
  unfold dropCountIfPremium spreadReset
  simp [h]

theorem finishStatus_premium (u : DeviceRecord) (ue up : Option String)
    (now : Nat) (db : DB) (e : Nat)
    (he : u.subscriptionExpiry = some e) (hf : now < e) :
    (finishStatus u ue up now db).1 =
      if (ownerCheck u ue up).1 && !(ownerCheck u ue up).2
      then meteredResult u.count else premiumResult e := by
  unfold finishStatus
  simp only [he, hf, if_true]
  split <;> rfl

theorem finishStatus_expired (u : DeviceRecord) (ue up : Option String)
    (now : Nat) (db : DB) (e : Nat)
    (he : u.subscriptionExpiry = some e) (hf : ¬ now < e) :
    (finishStatus u ue up now db).1 = meteredResult u.count := by
  unfold finishStatus
  simp only [he, hf, if_false]

theorem getStatus_result_found (db : DB) (d : String) (ue up : Option String)
    (now : Nat) (r : DeviceRecord)
    (hd : ¬ d = "") (hr : kvGet db.users d = some r) :
    (getLimitStatus db d ue up false now).1 =
      if r.date = some (dayOf now)
      then (finishStatus r ue up now db).1
      else (finishStatus (dropCountIfPremium (spreadReset (dayOf now) r)) ue up now
              { db with users := kvSet db.users d (mergeReset (dayOf now) (some r)) }).1 := by
  unfold getLimitStatus
  simp only [hd, if_false, Bool.false_eq_true, hr]
  split <;> rfl

theorem upgrade_newExpiry (db : DB) (d : String) (days : Nat)
    (pd : PaymentDetails) (now : Nat) :
    lookupExpiry (upgradeUser db d days pd false now).2 d =
      some (addDays (match lookupExpiry db d with
                     | some e => if now < e then e else now
                     | none => now) days) := by
  unfold upgradeUser lookupExpiry
  cases hk : kvGet db.users d with
  | none => simp [hk, kvGet_kvSet_self]
  | some r =>
    cases hs : r.subscriptionExpiry with
    | none => simp [hk, hs, kvGet_kvSet_self]
    | some e =>
      by_cases hn : now < e <;> simp [hk, hs, hn, kvGet_kvSet_self]

/-! Concrete sample data used by witnesses and counterexamples. -/

def day11 : Nat := 11 * msPerDay

/-- A free-tier record whose `date` is a day behind `day11` and whose count
is exhausted. -/
def staleZeroRec : DeviceRecord :=
  { date := some 10, count := some 0, subscriptionExpiry := none
    isPremium := none, email := none, phone := none }

def dbStaleZero : DB := ⟨[("d1", staleZeroRec)], []⟩

/-- A fresh free-tier record at the full daily limit. -/
def fullRec : DeviceRecord :=
  { date := some 11, count := some DAILY_LIMIT, subscriptionExpiry := none
    isPremium := none, email := none, phone := none }

def dbFull : DB := ⟨[("d1", fullRec)], []⟩

/-- A premium record owned via email, `date` current for `day11`. -/
def ownerRecFresh : DeviceRecord :=
  { date := some 11, count := some 3, subscriptionExpiry := some (20 * msPerDay)
    isPremium := some true, email := some "a@x.com", phone := none }

def dbOwnerFresh : DB := ⟨[("d1", ownerRecFresh)], []⟩

/-- Same premium record but with a stale `date`. -/
def ownerRecStale : DeviceRecord := { ownerRecFresh with date := some 10 }

def dbOwnerStale : DB := ⟨[("d1", ownerRecStale)], []⟩

/-- A record whose subscription has already expired at `day11`. -/
def expiredRec : DeviceRecord :=
  { date := some 11, count := some 2, subscriptionExpiry := some 5
    isPremium := some true, email := none, phone := none }

def dbExpired : DB := ⟨[("d1", expiredRec)], []⟩

/-- Payment metadata carrying owner identity and payment references. -/
def pdSample : PaymentDetails :=
  { email := some "a@x.com", phone := some "9812345678"
    orderId := some "order_1", paymentId := some "pay_1", amount := some 100 }

/-- C6: if the storage backend faults, every ledger operation returns its
denied/failure result: `getLimitStatus` yields `allowed = false`,
`remaining = 0` with an error indicator and no premium grant;
`decrementLimit` returns `false`; `incrementLimit` returns
`success = false`; `upgradeUser` returns `false`. A fault never yields
`allowed = true` or premium status. -/
theorem fault_fail_safe (db : DB) (d : String) (ue up : Option String)
    (now days : Nat) (pd : PaymentDetails) :
    (getLimitStatus db d ue up true now).1.allowed = false ∧
    (getLimitStatus db d ue up true now).1.remaining = some 0 ∧
    (getLimitStatus db d ue up true now).1.error.isSome = true ∧
    ¬ (getLimitStatus db d ue up true now).1.isPremium = some true ∧
    (decrementLimit db d true now).1 = false ∧
    (incrementLimit db d true).1.success = false ∧
    (upgradeUser db d days pd true now).1 = false := by
  unfold getLimitStatus decrementLimit incrementLimit upgradeUser
  by_cases hd : d = "" <;> simp [hd]

/-- C7: the invariant `count ≥ 0` on every stored device record is preserved
by every ledger operation, and starting from the empty store no sequence of
operations ever produces a negative count. -/
theorem count_nonneg (db : DB) (op : Op) (ops : List Op) :
    (CountInv db → CountInv (applyOp db op)) ∧ CountInv (run emptyDB ops) :=
  ⟨countInv_applyOp db op,
   countInv_run ops emptyDB (by intro p hp; simp [emptyDB] at hp)⟩

theorem count_nonneg_witness :
    CountInv dbFull ∧ CountInv (applyOp dbFull (Op.credit "d1" false)) :=
  ⟨by decide, (count_nonneg dbFull (Op.credit "d1" false) []).1 (by decide)⟩

/-- C9: `incrementLimit` on an existing record increments its count by
exactly one (uncapped) and reports success; on a missing record it reports
failure and leaves the store unchanged. -/
theorem credit_behavior (db : DB) (d : String) :
    (∀ data, kvGet db.users d = some data →
        incrementLimit db d false =
          ({ success := true },
           { db with users := kvSet db.users d ({ data with count := some (data.count.getD 0 + 1) }) })) ∧
    (kvGet db.users d = none → incrementLimit db d false = ({ success := false }, db)) := by
  constructor
  · intro data hk
    unfold incrementLimit
    simp [hk]
  · intro hk
    unfold incrementLimit
    simp [hk]

theorem credit_behavior_witness :
    kvGet dbFull.users "d1" = some fullRec ∧
    incrementLimit dbFull "d1" false =
      ({ success := true },
       { dbFull with users := kvSet dbFull.users "d1" ({ fullRec with count := some (fullRec.count.getD 0 + 1) }) }) ∧
    DAILY_LIMIT < fullRec.count.getD 0 + 1 :=
  ⟨by decide, (credit_behavior dbFull "d1").1 fullRec (by decide), by decide⟩

/-- C10: `decrementLimit` on a device with no stored record returns `true` —
the same success value as a real decrement — and neither creates a record
nor changes any state. -/
theorem debit_missing_record (db : DB) (d : String) (now : Nat)
    (h : kvGet db.users d = none) :
    decrementLimit db d false now = (true, db) ∧
    ∀ db1 : DB, (decrementLimit db1 d false now).1 = true := by
  constructor
  · unfold decrementLimit
    simp [h]
  · intro db1
    unfold decrementLimit
    simp only [Bool.false_eq_true, if_false]
    cases hk : kvGet db1.users d with
    | none => rfl
    | some data =>
      dsimp only
      have hdec : (decCount db1 d data).1 = true := by
        unfold decCount
        cases data.count with
        | none => rfl
        | some c =>
          dsimp only
          split <;> rfl
      cases data.subscriptionExpiry with
      | none => simpa using hdec
      | some e =>
        dsimp only
        split
        · rfl
        · simpa using hdec

theorem debit_missing_record_witness :
    kvGet emptyDB.users "nodev" = none ∧
    decrementLimit emptyDB "nodev" false day11 = (true, emptyDB) :=
  ⟨by decide, (debit_missing_record emptyDB "nodev" day11 (by decide)).1⟩

/-- C3 counterexample: a record with no subscription and `count = 0` —
`decrementLimit` returns `true` (its success value), not a failure result;
the count stays `0`. -/
theorem debit_at_zero_counterexample :
    (decrementLimit dbStaleZero "d1" false day11).1 = true ∧
    ¬ (decrementLimit dbStaleZero "d1" false day11).1 = false ∧
    kvGet (decrementLimit dbStaleZero "d1" false day11).2.users "d1" = some staleZeroRec := by
  refine ⟨by decide, by decide, by decide⟩

/-- C3 (amended): on a record with `count = 0`, `decrementLimit` is a no-op
that returns the success value `true` and leaves the store (hence the count)
unchanged. -/
theorem debit_at_zero_noop (db : DB) (d : String) (now : Nat) (r : DeviceRecord)
    (hr : kvGet db.users d = some r) (hc : r.count = some 0) :
    decrementLimit db d false now = (true, db) := by
  unfold decrementLimit
  simp only [hr, Bool.false_eq_true, if_false]
  have hdec : decCount db d r = (true, db) := by
    unfold decCount
    simp [hc]
  cases r.subscriptionExpiry with
  | none => exact hdec
  | some e =>
    dsimp only
    split
    · rfl
    · exact hdec

theorem debit_at_zero_noop_witness :
    kvGet dbStaleZero.users "d1" = some staleZeroRec ∧
    staleZeroRec.count = some 0 ∧
    decrementLimit dbStaleZero "d1" false day11 = (true, dbStaleZero) :=
  ⟨by decide, by decide,
   debit_at_zero_noop dbStaleZero "d1" day11 staleZeroRec (by decide) (by decide)⟩

/-- C8: a stored `subscriptionExpiry` is never deleted by any operation
(status with its reset write, debit, credit, or upgrade), and a record whose
expiry is in the past falls back to the metered result while the stored
expiry value survives the call. -/
theorem expiry_never_deleted (db : DB) (op : Op) (d1 : String) (e1 : Nat)
    (d : String) (ue up : Option String) (now : Nat) (r : DeviceRecord) (e : Nat) :
    (lookupExpiry db d1 = some e1 → (lookupExpiry (applyOp db op) d1).isSome = true) ∧
    (¬ d = "" → kvGet db.users d = some r → r.subscriptionExpiry = some e → e ≤ now →
      (∃ c, (getLimitStatus db d ue up false now).1 = meteredResult c) ∧
      lookupExpiry (getLimitStatus db d ue up false now).2 d = some e) := by
  constructor
  · intro h
    exact lookupExpiry_applyOp_isSome db op d1 e1 h
  · intro hd hr he hle
    have hnf : ¬ now < e := by omega
    constructor
    · rw [getStatus_result_found db d ue up now r hd hr]
      by_cases hdate : r.date = some (dayOf now)
      · rw [if_pos hdate, finishStatus_expired r ue up now db e he hnf]
        exact ⟨r.count, rfl⟩
      · rw [if_neg hdate]
        have he2 := expiry_dropSpread (dayOf now) r
        rw [he] at he2
        rw [finishStatus_expired _ ue up now _ e he2 hnf]
        exact ⟨_, rfl⟩
    · rw [lookupExpiry_getStatus]
      unfold lookupExpiry
      rw [hr]
      exact he

theorem expiry_never_deleted_witness :
    (lookupExpiry dbExpired "d1" = some 5 ∧
     (lookupExpiry (applyOp dbExpired (Op.debit "d1" false day11)) "d1").isSome = true) ∧
    (¬ "d1" = "" ∧ kvGet dbExpired.users "d1" = some expiredRec ∧
     expiredRec.subscriptionExpiry = some 5 ∧ 5 ≤ day11 ∧
     ((∃ c, (getLimitStatus dbExpired "d1" none none false day11).1 = meteredResult c) ∧
      lookupExpiry (getLimitStatus dbExpired "d1" none none false day11).2 "d1" = some 5)) :=
  ⟨⟨by decide,
    (expiry_never_deleted dbExpired (Op.debit "d1" false day11) "d1" 5 "d1" none none
        day11 expiredRec 5).1 (by decide)⟩,
   ⟨by decide, by decide, by decide, by decide,
    (expiry_never_deleted dbExpired (Op.debit "d1" false day11) "d1" 5 "d1" none none
        day11 expiredRec 5).2 (by decide) (by decide) (by decide) (by decide)⟩⟩

/-- C5: `upgradeUser` with duration `days` extends from the stored expiry
when that expiry is strictly in the future, and from `now` when it is absent
or past; the stored expiry never shrinks across an upgrade. -/
theorem upgrade_extends (db : DB) (d : String) (days : Nat)
    (pd : PaymentDetails) (now : Nat) :
    (∀ e, lookupExpiry db d = some e → now < e →
        lookupExpiry (upgradeUser db d days pd false now).2 d = some (addDays e days)) ∧
    ((∀ e, lookupExpiry db d = some e → e ≤ now) →
        lookupExpiry (upgradeUser db d days pd false now).2 d = some (addDays now days)) ∧
    (∀ e e1, lookupExpiry db d = some e →
        lookupExpiry (upgradeUser db d days pd false now).2 d = some e1 → e ≤ e1) := by
  have hmain := upgrade_newExpiry db d days pd now
  refine ⟨?_, ?_, ?_⟩
  · intro e he hlt
    rw [hmain, he]
    simp [hlt]
  · intro hpast
    cases hle : lookupExpiry db d with
    | none => rw [hmain, hle]
    | some e =>
      have h1 := hpast e hle
      have h2 : ¬ now < e := by omega
      rw [hmain, hle]
      simp [h2]
  · intro e e1 he h1
    rw [hmain, he] at h1
    dsimp only at h1
    by_cases hn : now < e
    · rw [if_pos hn] at h1
      have h2 : addDays e days = e1 := by injection h1
      unfold addDays at h2
      omega
    · rw [if_neg hn] at h1
      have h2 : addDays now days = e1 := by injection h1
      unfold addDays at h2
      omega

theorem upgrade_extends_witness :
    lookupExpiry dbOwnerFresh "d1" = some (20 * msPerDay) ∧
    day11 < 20 * msPerDay ∧
    lookupExpiry (upgradeUser dbOwnerFresh "d1" 30 pdSample false day11).2 "d1" =
      some (addDays (20 * msPerDay) 30) :=
  ⟨by decide, by decide,
   (upgrade_extends dbOwnerFresh "d1" 30 pdSample day11).1 (20 * msPerDay)
     (by decide) (by decide)⟩

/-- C2 counterexample: an upgrade whose payment metadata carries email and
phone stores them only in the `premium_users` history entry; the `users`
device record written by the same call has no `email`/`phone` fields, so the
ownership check of `getLimitStatus` finds none. -/
theorem upgrade_identity_counterexample :
    kvGet (upgradeUser emptyDB "d1" 30 pdSample false 1000).2.users "d1" =
      some { date := none, count := none, subscriptionExpiry := some (addDays 1000 30)
             isPremium := some true, email := none, phone := none } ∧
    kvGet (upgradeUser emptyDB "d1" 30 pdSample false 1000).2.premium_users "d1" =
      some { deviceId := "d1", subscriptionExpiry := addDays 1000 30, isPremium := true
             upgradedAt := addDays 1000 30, planDuration := 30
             email := some "a@x.com", phone := some "9812345678"
             orderId := some "order_1", paymentId := some "pay_1", amount := some 100 } := by
  refine ⟨by decide, by decide⟩

/-- C2 (amended): `upgradeUser` records the owner identity fields of the
payment metadata only in the `premium_users` history entry (keyed by device
id, with plan duration and payment references); the device record's own
`email`/`phone` fields are left exactly as they were. -/
theorem upgrade_identity_in_history (db : DB) (d : String) (days : Nat)
    (pd : PaymentDetails) (now : Nat) :
    ((kvGet (upgradeUser db d days pd false now).2.users d).bind DeviceRecord.email
        = (kvGet db.users d).bind DeviceRecord.email) ∧
    ((kvGet (upgradeUser db d days pd false now).2.users d).bind DeviceRecord.phone
        = (kvGet db.users d).bind DeviceRecord.phone) ∧
    (∃ ent, kvGet (upgradeUser db d days pd false now).2.premium_users d = some ent ∧
      ent.deviceId = d ∧ ent.planDuration = days ∧ ent.isPremium = true ∧
      ent.email = (if truthy pd.email = true then pd.email else none) ∧
      ent.phone = (if truthy pd.phone = true then pd.phone else none) ∧
      ent.orderId = (if truthy pd.orderId = true then pd.orderId else none) ∧
      ent.paymentId = (if truthy pd.paymentId = true then pd.paymentId else none)) := by
  unfold upgradeUser
  simp only [Bool.false_eq_true, if_false]
  cases hk : kvGet db.users d with
  | none =>
    refine ⟨?_, ?_, ?_⟩
    · simp [hk, kvGet_kvSet_self]
    · simp [hk, kvGet_kvSet_self]
    · exact ⟨_, kvGet_kvSet_self _ _ _, rfl, rfl, rfl, rfl, rfl, rfl, rfl⟩
  | some r =>
    refine ⟨?_, ?_, ?_⟩
    · simp [hk, kvGet_kvSet_self]
    · simp [hk, kvGet_kvSet_self]
    · exact ⟨_, kvGet_kvSet_self _ _ _, rfl, rfl, rfl, rfl, rfl, rfl, rfl⟩

/-- C4 counterexample: a premium record with a stale `date`, owner email
hint, queried with a non-matching email: the reset path drops the in-memory
count, so the call returns `allowed = false` and no `remaining` field at
all, not the metered result of the record's count (3 before the call, 5 as
persisted by the same call). -/
theorem ownership_gate_counterexample :
    ownerRecStale.subscriptionExpiry = some (20 * msPerDay) ∧
    day11 < 20 * msPerDay ∧
    ownerRecStale.count = some 3 ∧
    (getLimitStatus dbOwnerStale "d1" (some "b@y.com") none false day11).1 =
      { allowed := false, remaining := none, isPremium := some false
        expiryDate := none, error := none } ∧
    ¬ (getLimitStatus dbOwnerStale "d1" (some "b@y.com") none false day11).1 =
        meteredResult (some 3) ∧
    kvGet (getLimitStatus dbOwnerStale "d1" (some "b@y.com") none false day11).2.users "d1" =
      some ({ ownerRecStale with date := some 11, count := some DAILY_LIMIT }) := by
  refine ⟨by decide, by decide, by decide, by decide, by decide, by decide⟩

/-- C4 (amended): for a record with a strictly-future `subscriptionExpiry`:
when an owner hint exists and the requester matches none (email
case-insensitively, phone by equality or bidirectional containment), the
call returns the metered result of the record's count provided the record's
`date` is current — with a stale `date` the premium reset path drops the
in-memory count and the mismatch returns `allowed = false` with no
`remaining`; when a hint matches or no hint is recorded, the call returns
`allowed = true`, `remaining = 9999`, `isPremium = true` and the stored
expiry. -/
theorem ownership_gate (db : DB) (d : String) (ue up : Option String)
    (now : Nat) (r : DeviceRecord) (e : Nat)
    (hd : ¬ d = "") (hr : kvGet db.users d = some r)
    (he : r.subscriptionExpiry = some e) (hf : now < e) :
    (r.date = some (dayOf now) → ownerCheck r ue up = (true, false) →
        (getLimitStatus db d ue up false now).1 = meteredResult r.count) ∧
    ((ownerCheck r ue up).1 = false ∨ (ownerCheck r ue up).2 = true →
        (getLimitStatus db d ue up false now).1 = premiumResult e) ∧
    (¬ r.date = some (dayOf now) → ownerCheck r ue up = (true, false) →
        (getLimitStatus db d ue up false now).1 = meteredResult none) := by
  rw [getStatus_result_found db d ue up now r hd hr]
  have he2 : (dropCountIfPremium (spreadReset (dayOf now) r)).subscriptionExpiry = some e := by
    rw [expiry_dropSpread, he]
  refine ⟨?_, ?_, ?_⟩
  · intro hdate hoc
    rw [if_pos hdate, finishStatus_premium r ue up now db e he hf, hoc]
    simp
  · intro h
    by_cases hdate : r.date = some (dayOf now)
    · rw [if_pos hdate, finishStatus_premium r ue up now db e he hf]
      rcases h with h | h <;> simp [h]
    · rw [if_neg hdate,
        finishStatus_premium _ ue up now _ e he2 hf, ownerCheck_dropSpread]
      rcases h with h | h <;> simp [h]
  · intro hdate hoc
    rw [if_neg hdate,
      finishStatus_premium _ ue up now _ e he2 hf, ownerCheck_dropSpread, hoc,
      count_dropSpread_premium (dayOf now) r e he]
    simp

theorem ownership_gate_witness :
    ¬ "d1" = "" ∧
    kvGet dbOwnerFresh.users "d1" = some ownerRecFresh ∧
    ownerRecFresh.subscriptionExpiry = some (20 * msPerDay) ∧
    day11 < 20 * msPerDay ∧
    (ownerCheck ownerRecFresh (some "A@X.com") none).2 = true ∧
    (getLimitStatus dbOwnerFresh "d1" (some "A@X.com") none false day11).1 =
      premiumResult (20 * msPerDay) :=
  ⟨by decide, by decide, by decide, by decide, by decide,
   (ownership_gate dbOwnerFresh "d1" (some "A@X.com") none day11 ownerRecFresh
      (20 * msPerDay) (by decide) (by decide) (by decide) (by decide)).2.1
     (Or.inr (by decide))⟩

/-- C1: code behavior at the day boundary. A record with yesterday's `date`
and `count = 0`: the first `getLimitStatus` of the new day persists the
reset (`date = today`, `count = DAILY_LIMIT`) but returns the stale values
(`allowed = false`, `remaining = 0`), because the spread
`{ date: today, count: DAILY_LIMIT, ...userData }` lets the stored fields
override the in-memory reset values. -/
theorem day_boundary_first_call :
    (getLimitStatus dbStaleZero "d1" none none false day11).1 =
      { allowed := false, remaining := some 0, isPremium := some false
        expiryDate := none, error := none } ∧
    kvGet (getLimitStatus dbStaleZero "d1" none none false day11).2.users "d1" =
      some { date := some 11, count := some DAILY_LIMIT, subscriptionExpiry := none
             isPremium := none, email := none, phone := none } := by
  refine ⟨by decide, by decide⟩
